import Mathlib

/-!
Verification of the resume-editor frontend (`App` in the editor component, plus
the raw-view variant). The component keeps a parsed resume as a plain JS object
(`ResumeData`), edits it through `handleFieldChange` (object spread) and a
family of list handlers (`addEducation`, `removeEducation`, per-entry onChange
closures, ...), and talks to an external backend through `handleUpload` and the
save button's onClick. The definitions below are shallow embeddings of those
functions: JS objects become ordered association lists with unique keys, JS
arrays become Lean lists, the two network handlers become state-transition
functions parametrised by the observed outcome of the HTTP round trip, and the
reference/aliasing semantics of the per-entry mutation (`updated[i].degree = v`
after a shallow array spread) is modelled explicitly with a heap of entry
objects addressed by position.
-/

/-- A runtime value stored in a `ResumeData` field: text, an array, or a
structured sub-record (education / experience / project / portfolio entry). -/
inductive JVal where
  | str : String → JVal
  | arr : List JVal → JVal
  | obj : List (String × JVal) → JVal

/-- A parsed resume document: a JS object, i.e. an ordered mapping from field
name to value. Keys are unique, as in any JS object. -/
abbrev Doc := List (String × JVal)

/-- JS property read `d[f]`: the value at the (unique) key `f`. -/
def lookupVal : List (String × JVal) → String → Option JVal
  | [], _ => none
  | (k, v) :: rest, f => if k = f then some v else lookupVal rest f

/-- JS object spread `{...d, [f]: v}`: an existing binding of `f` keeps its
position in key order and gets the new value; a fresh key is appended at the
end. (Documents have unique keys, so replacing the first occurrence is the
same as replacing the only one.) -/
def setKey : List (String × JVal) → String → JVal → List (String × JVal)
  | [], f, v => [(f, v)]
  | (k, w) :: rest, f, v =>
    if k = f then (f, v) :: rest else (k, w) :: setKey rest f v

/-- `handleFieldChange` from the editor `App`:
`setParsedData((prev) => prev ? {...prev, [field]: value} : {[field]: value})`. -/
def handleFieldChange (prev : Option Doc) (field : String) (value : JVal) : Doc :=
  match prev with
  | some d => setKey d field value
  | none => [(field, value)]

/-- The entry list the add/remove handlers read from the document:
`parsedData?.f ? [...parsedData.f] : []` resp. `[...(parsedData?.f || [])]` —
the array when the document holds one under `field`, empty when the document
or the field is absent. (List fields hold arrays by the `ResumeData` type.) -/
def getList (prev : Option Doc) (field : String) : List JVal :=
  match prev with
  | none => []
  | some d =>
    match lookupVal d field with
    | some (JVal.arr l) => l
    | _ => []

/-- The default entry `addEducation` pushes. -/
def eduDefaultFields : List (String × JVal) :=
  [("degree", JVal.str ""), ("institution", JVal.str ""), ("start_year", JVal.str ""),
   ("end_year", JVal.str ""), ("description", JVal.str "")]

/-- The default education entry as a value. -/
def eduDefault : JVal := JVal.obj eduDefaultFields

/-- `addEducation`: copies the current list, pushes the default entry, and
installs the result through `handleFieldChange`. -/
def addEducation (prev : Option Doc) : Doc :=
  handleFieldChange prev "education" (JVal.arr (getList prev "education" ++ [eduDefault]))

/-- The default entry `addExperience` pushes. -/
def expDefaultFields : List (String × JVal) :=
  [("company", JVal.str ""), ("title", JVal.str ""), ("start_year", JVal.str ""),
   ("end_year", JVal.str ""), ("description", JVal.arr [JVal.str ""])]

/-- The default experience entry as a value. -/
def expDefault : JVal := JVal.obj expDefaultFields

/-- `addExperience` from the editor `App`. -/
def addExperience (prev : Option Doc) : Doc :=
  handleFieldChange prev "experience" (JVal.arr (getList prev "experience" ++ [expDefault]))

/-- The default entry `addProject` pushes. -/
def projDefaultFields : List (String × JVal) :=
  [("project_name", JVal.str ""), ("start_year", JVal.str ""),
   ("end_year", JVal.str ""), ("description", JVal.arr [JVal.str ""])]

/-- The default project entry as a value. -/
def projDefault : JVal := JVal.obj projDefaultFields

/-- `addProject` from the editor `App`. -/
def addProject (prev : Option Doc) : Doc :=
  handleFieldChange prev "projects" (JVal.arr (getList prev "projects" ++ [projDefault]))

/-- `updated.splice(i, 1)`: JS `splice` removes the element at index `i` and
shifts the rest down; for `i` at or past the end it removes nothing. -/
def spliceRemove (l : List JVal) (i : Nat) : List JVal :=
  l.take i ++ l.drop (i + 1)

/-- `removeEducation` from the editor `App`. -/
def removeEducation (prev : Option Doc) (i : Nat) : Doc :=
  handleFieldChange prev "education" (JVal.arr (spliceRemove (getList prev "education") i))

/-- `removeExperience` from the editor `App`. -/
def removeExperience (prev : Option Doc) (i : Nat) : Doc :=
  handleFieldChange prev "experience" (JVal.arr (spliceRemove (getList prev "experience") i))

/-- `removeProject` from the editor `App`. -/
def removeProject (prev : Option Doc) (i : Nat) : Doc :=
  handleFieldChange prev "projects" (JVal.arr (spliceRemove (getList prev "projects") i))

/-- JS property assignment `e[s] = v` on an entry object. (Assignment to a
primitive is a silent no-op in non-strict mode.) -/
def setKeyJ : JVal → String → JVal → JVal
  | JVal.obj kvs, s, v => JVal.obj (setKey kvs s v)
  | j, _, _ => j

/-- Value of the document produced by the per-entry onChange handlers, e.g.
`const updated = [...parsedData.education!]; updated[i].degree = e.target.value;
handleFieldChange("education", updated)` — generic over the list field and the
subfield the concrete handler targets. This captures the resulting document's
value; the aliasing side effect of the same handler on the *previous* document
is modelled separately by `eduDegreeHandler` below. -/
def updateEntryField (prev : Option Doc) (field : String) (i : Nat)
    (sub : String) (v : JVal) : Doc :=
  let l := getList prev field
  handleFieldChange prev field (JVal.arr (
    match l[i]? with
    | some e => l.set i (setKeyJ e sub v)
    | none => l))

/-- A subfield holds its default value: a text subfield is the empty string, a
list subfield is a single-element list containing the empty string. -/
def defaultSubfield : JVal → Bool
  | JVal.str s => s == ""
  | JVal.arr [JVal.str s] => s == ""
  | _ => false

/-- Every subfield of the entry holds its default value. -/
def isDefaultEntry : JVal → Bool
  | JVal.obj kvs => kvs.all fun p => defaultSubfield p.2
  | _ => false

/-- Worker for `jsSplitComma`: walk the characters, cutting at every comma. -/
def splitCommaAux : List Char → List Char → List (List Char)
  | [], acc => [acc.reverse]
  | c :: cs, acc =>
    if c = ',' then acc.reverse :: splitCommaAux cs []
    else splitCommaAux cs (c :: acc)

/-- JS `e.target.value.split(",")`: split on every comma, no trimming; the
empty string yields `[""]`, exactly as `String.prototype.split`. -/
def jsSplitComma (s : String) : List String :=
  (splitCommaAux s.data []).map fun cs => String.mk cs

/-- JS `parsedData.technical_skills?.join(", ")`: display of a bulk text field. -/
def bulkDisplay (l : List String) : String :=
  String.intercalate ", " l

/-- The textarea onChange for `technical_skills` / `certifications` /
`languages`: `handleFieldChange(field, e.target.value.split(","))`. -/
def editBulkField (prev : Option Doc) (field : String) (t : String) : Doc :=
  handleFieldChange prev field (JVal.arr ((jsSplitComma t).map JVal.str))

/-- The `App` component's state cells: `file`, `parsedData`, `pdfUrl`,
`loading`, `error`. -/
structure AppState where
  file : Option String
  parsedData : Option Doc
  pdfUrl : Option String
  loading : Bool
  error : Option String

/-- Outcome of the `/upload/` round trip as observed inside `handleUpload`:
the promise chain rejected (`some m` when the thrown value is an `Error` with
message `m`, `none` for a non-`Error` throw), or an HTTP response arrived with
`res.ok` false, or an ok response arrived whose JSON body carries the given
`parsed` and `pdf_url` fields (`parsed = none` models an absent/falsy field). -/
inductive UploadOutcome where
  | reject (msg : Option String)
  | notOk (statusText : String)
  | success (parsed : Option Doc) (pdf_url : Option String)

/-- The outcomes the spec's error taxonomy counts as upload failures:
TransportError, ServerError, and ParseFailure (ok status, no `parsed`). -/
def UploadOutcome.isFailure : UploadOutcome → Bool
  | UploadOutcome.reject _ => true
  | UploadOutcome.notOk _ => true
  | UploadOutcome.success parsed _ => parsed.isNone

/-- `handleUpload` (identical logic in the editor and raw-view components):
bail out when no file is selected; set `loading`, clear `error`; then either
install the parsed document and preview URL, or set the error message from the
failure (`throw new Error("Upload failed: " + res.statusText)` for a non-ok
status, the thrown `Error`'s message for a rejection, a fixed message for a
non-`Error` throw or a body without `parsed`); finally clear `loading`. -/
def handleUpload (st : AppState) (out : UploadOutcome) : AppState :=
  match st.file with
  | none => st
  | some _ =>
    let st1 := { st with loading := true, error := none }
    let st2 :=
      match out with
      | UploadOutcome.reject msg =>
        { st1 with error := some (msg.getD "An unknown error occurred.") }
      | UploadOutcome.notOk statusText =>
        { st1 with error := some ("Upload failed: " ++ statusText) }
      | UploadOutcome.success parsed pdf =>
        match parsed with
        | some p => { st1 with parsedData := some p, pdfUrl := pdf }
        | none => { st1 with error := some "Parsing failed. Please try another resume." }
    { st2 with loading := false }

/-- Outcome of the `/update/` round trip as observed inside the save button's
onClick: the promise chain rejected (fetch failed or the body was not JSON), or
a JSON body arrived carrying `res.ok` (which the code never reads) and an
optional `pdf_url`. -/
inductive SaveOutcome where
  | reject
  | response (ok : Bool) (pdf_url : Option String)

/-- The outcomes the spec's error taxonomy counts as save failures:
a rejection, a non-ok status, or a body without a truthy `pdf_url`. -/
def SaveOutcome.failed : SaveOutcome → Bool
  | SaveOutcome.reject => true
  | SaveOutcome.response ok pdf => !ok || pdf.getD "" == ""

/-- Outcomes in which the save handler obtains no usable (truthy) `pdf_url`:
a rejection, or a body whose `pdf_url` is absent or empty. -/
def SaveOutcome.yieldsNoPdf : SaveOutcome → Bool
  | SaveOutcome.reject => true
  | SaveOutcome.response _ pdf => pdf.getD "" == ""

/-- The save button's onClick: bail out when no document is loaded; on a JSON
body with a truthy `pdf_url`, install `pdf_url + "?t=" + Date.now()`; a
rejection only hits `console.error`, and a body without a truthy `pdf_url` is
ignored — neither path touches any other state cell (`res.ok` is never read). -/
def handleSave (st : AppState) (t : Nat) (out : SaveOutcome) : AppState :=
  match st.parsedData with
  | none => st
  | some _ =>
    match out with
    | SaveOutcome.reject => st
    | SaveOutcome.response _ pdf =>
      match pdf with
      | none => st
      | some url =>
        if url = "" then st
        else { st with pdfUrl := some (url ++ "?t=" ++ toString t) }

/-- An education entry object, as stored on the JS heap. -/
structure EduEntry where
  degree : String
  institution : String
  start_year : String
  end_year : String
  description : String
deriving DecidableEq

/-- Reference semantics of the education `degree` onChange handler. Entry
objects live on a heap (addressed by position); a document's `education` field
holds a list of references. `const updated = [...parsedData.education!]`
copies only the list of references; `updated[i].degree = e.target.value`
writes through the shared reference into the heap; the handler returns the new
heap together with the array passed to `handleFieldChange`. The previous
document still holds its old reference list into the same heap. -/
def eduDegreeHandler (heap : List EduEntry) (refs : List Nat) (i : Nat)
    (v : String) : List EduEntry × List Nat :=
  let updated := refs
  match updated[i]? with
  | some a =>
    match heap[a]? with
    | some c => (heap.set a { c with degree := v }, updated)
    | none => (heap, updated)
  | none => (heap, updated)

/-- A document's education list as rendered: every reference dereferenced
through the heap. -/
def viewEdu (heap : List EduEntry) (refs : List Nat) : List (Option EduEntry) :=
  refs.map fun a => heap[a]?

/-! ## Library of facts about the field binder -/

/-- After a spread update, the written key holds the new value. -/
theorem lookupVal_setKey_self (d : List (String × JVal)) (f : String) (v : JVal) :
    lookupVal (setKey d f v) f = some v := by
  induction d with
  | nil => simp [setKey, lookupVal]
  | cons p rest ih =>
    obtain ⟨k, w⟩ := p
    by_cases h : k = f
    · subst h; simp [setKey, lookupVal]
    · simp [setKey, h, lookupVal, ih]

/-- After a spread update, every other key reads as before. -/
theorem lookupVal_setKey_ne (d : List (String × JVal)) (f g : String) (v : JVal)
    (hg : g ≠ f) : lookupVal (setKey d f v) g = lookupVal d g := by
  induction d with
  | nil => simp [setKey, lookupVal, Ne.symm hg]
  | cons p rest ih =>
    obtain ⟨k, w⟩ := p
    by_cases h : k = f
    · subst h; simp [setKey, lookupVal, Ne.symm hg]
    · by_cases hkg : k = g
      · simp [setKey, h, lookupVal, hkg, hg]
      · simp [setKey, h, lookupVal, hkg, ih]

/-- A spread update leaves the sub-list of bindings at other keys unchanged. -/
theorem filter_setKey (d : List (String × JVal)) (f : String) (v : JVal) :
    (setKey d f v).filter (fun p => p.1 != f) = d.filter (fun p => p.1 != f) := by
  induction d with
  | nil => simp [setKey]
  | cons p rest ih =>
    obtain ⟨k, w⟩ := p
    by_cases h : k = f
    · subst h; simp [setKey]
    · simp [setKey, h, ih]

/-! ## The claims -/

/-- Claim C1: for every document `D` (the absent document acting as the empty
mapping), field name `f` and value `v`, `handleFieldChange D f v` binds `f` to
`v`, reads every other field exactly as `D` did, keeps the sub-list of other
bindings unchanged, and on an absent document produces the single-field
document `[(f, v)]`. -/
theorem C1_setField (D : Option Doc) (f g : String) (v : JVal) (hg : g ≠ f) :
    lookupVal (handleFieldChange D f v) f = some v ∧
    lookupVal (handleFieldChange D f v) g = lookupVal (D.getD []) g ∧
    (handleFieldChange D f v).filter (fun p => p.1 != f) =
      (D.getD []).filter (fun p => p.1 != f) ∧
    handleFieldChange none f v = [(f, v)] := by
  match D with
  | none =>
    refine ⟨?_, ?_, ?_, rfl⟩
    · simp [handleFieldChange, lookupVal]
    · simp [handleFieldChange, lookupVal, Ne.symm hg]
    · simp [handleFieldChange]
  | some d =>
    exact ⟨lookupVal_setKey_self d f v, lookupVal_setKey_ne d f g v hg,
      filter_setKey d f v, rfl⟩

/-- Witness for C1 at a concrete document, field, and value. -/
theorem C1_setField_witness :
    lookupVal (handleFieldChange (some [("full_name", JVal.str "Jane"), ("title", JVal.str "Dev")])
        "full_name" (JVal.str "Jo")) "full_name" = some (JVal.str "Jo") ∧
    lookupVal (handleFieldChange (some [("full_name", JVal.str "Jane"), ("title", JVal.str "Dev")])
        "full_name" (JVal.str "Jo")) "title" =
      lookupVal ((some [("full_name", JVal.str "Jane"), ("title", JVal.str "Dev")] : Option Doc).getD [])
        "title" ∧
    (handleFieldChange (some [("full_name", JVal.str "Jane"), ("title", JVal.str "Dev")])
        "full_name" (JVal.str "Jo")).filter (fun p => p.1 != "full_name") =
      ((some [("full_name", JVal.str "Jane"), ("title", JVal.str "Dev")] : Option Doc).getD []).filter
        (fun p => p.1 != "full_name") ∧
    handleFieldChange none "full_name" (JVal.str "Jo") = [("full_name", JVal.str "Jo")] :=
  C1_setField (some [("full_name", JVal.str "Jane"), ("title", JVal.str "Dev")])
    "full_name" "title" (JVal.str "Jo") (by decide)

/-- Claim C2 (evidence of the code bug): running the education `degree`
onChange handler on a document whose education list holds one entry changes
what the *previous* document renders to — `[...parsedData.education!]` copies
only the array of references, so `updated[0].degree = "PhD"` writes through
the entry object shared with the previous document. The previous document's
reference list `[0]`, dereferenced after the edit, shows `degree = "PhD"`. -/
theorem C2_education_handler_mutates_previous_document :
    viewEdu (eduDegreeHandler [⟨"BS", "MIT", "2019", "2023", ""⟩] [0] 0 "PhD").1 [0] ≠
      viewEdu [⟨"BS", "MIT", "2019", "2023", ""⟩] [0] ∧
    viewEdu (eduDegreeHandler [⟨"BS", "MIT", "2019", "2023", ""⟩] [0] 0 "PhD").1 [0] =
      [some ⟨"PhD", "MIT", "2019", "2023", ""⟩] ∧
    viewEdu [⟨"BS", "MIT", "2019", "2023", ""⟩] [0] =
      [some ⟨"BS", "MIT", "2019", "2023", ""⟩] := by
  refine ⟨by decide, rfl, rfl⟩

/-- Claim C3: each add handler appends exactly one default entry to its list —
the first `n` elements are the old ones, the appended entry has every text
subfield `""` and every list subfield `[""]` — and on a document lacking the
field it binds the field to the one-element list of that default entry (for
experience: `company = ""` and `description = [""]`). -/
theorem C3_append (d d' : Doc) (le lx lp : List JVal)
    (he : lookupVal d "education" = some (JVal.arr le))
    (hx : lookupVal d "experience" = some (JVal.arr lx))
    (hp : lookupVal d "projects" = some (JVal.arr lp))
    (hd' : lookupVal d' "experience" = none) :
    lookupVal (addEducation (some d)) "education" = some (JVal.arr (le ++ [eduDefault])) ∧
    lookupVal (addExperience (some d)) "experience" = some (JVal.arr (lx ++ [expDefault])) ∧
    lookupVal (addProject (some d)) "projects" = some (JVal.arr (lp ++ [projDefault])) ∧
    (le ++ [eduDefault]).length = le.length + 1 ∧
    (∀ j, j < le.length → (le ++ [eduDefault])[j]? = le[j]?) ∧
    (le ++ [eduDefault])[le.length]? = some eduDefault ∧
    isDefaultEntry eduDefault = true ∧
    isDefaultEntry expDefault = true ∧
    isDefaultEntry projDefault = true ∧
    lookupVal (addExperience (some d')) "experience" = some (JVal.arr [expDefault]) ∧
    lookupVal expDefaultFields "company" = some (JVal.str "") ∧
    lookupVal expDefaultFields "description" = some (JVal.arr [JVal.str ""]) := by
  refine ⟨?_, ?_, ?_, by simp, ?_, ?_, by decide, by decide, by decide, ?_, rfl, rfl⟩
  · simp [addEducation, getList, he, handleFieldChange, lookupVal_setKey_self]
  · simp [addExperience, getList, hx, handleFieldChange, lookupVal_setKey_self]
  · simp [addProject, getList, hp, handleFieldChange, lookupVal_setKey_self]
  · intro j hj
    exact List.getElem?_append_left hj
  · rw [List.getElem?_append_right (Nat.le_refl _)]
    simp
  · simp [addExperience, getList, hd', handleFieldChange, lookupVal_setKey_self]

/-- Witness for C3 at a concrete document carrying all three list fields and a
concrete document lacking `experience`. -/
theorem C3_append_witness :
    lookupVal (addEducation (some [("education", JVal.arr []), ("experience", JVal.arr []),
        ("projects", JVal.arr [])])) "education" = some (JVal.arr ([] ++ [eduDefault])) ∧
    lookupVal (addExperience (some [("education", JVal.arr []), ("experience", JVal.arr []),
        ("projects", JVal.arr [])])) "experience" = some (JVal.arr ([] ++ [expDefault])) ∧
    lookupVal (addProject (some [("education", JVal.arr []), ("experience", JVal.arr []),
        ("projects", JVal.arr [])])) "projects" = some (JVal.arr ([] ++ [projDefault])) ∧
    (([] : List JVal) ++ [eduDefault]).length = ([] : List JVal).length + 1 ∧
    (∀ j, j < ([] : List JVal).length →
      (([] : List JVal) ++ [eduDefault])[j]? = ([] : List JVal)[j]?) ∧
    (([] : List JVal) ++ [eduDefault])[([] : List JVal).length]? = some eduDefault ∧
    isDefaultEntry eduDefault = true ∧
    isDefaultEntry expDefault = true ∧
    isDefaultEntry projDefault = true ∧
    lookupVal (addExperience (some ([("full_name", JVal.str "Jane")] : Doc))) "experience" =
      some (JVal.arr [expDefault]) ∧
    lookupVal expDefaultFields "company" = some (JVal.str "") ∧
    lookupVal expDefaultFields "description" = some (JVal.arr [JVal.str ""]) :=
  C3_append [("education", JVal.arr []), ("experience", JVal.arr []), ("projects", JVal.arr [])]
    [("full_name", JVal.str "Jane")] [] [] [] rfl rfl rfl rfl

/-- `splice(i, 1)` on a list of length `n > i` leaves `n - 1` elements. -/
theorem spliceRemove_length (l : List JVal) (i : Nat) (h : i < l.length) :
    (spliceRemove l i).length = l.length - 1 := by
  simp [spliceRemove]
  omega

/-- Elements before the removed index are untouched. -/
theorem spliceRemove_getElem_lt (l : List JVal) (i j : Nat) (hj : j < i)
    (hi : i ≤ l.length) : (spliceRemove l i)[j]? = l[j]? := by
  unfold spliceRemove
  rw [List.getElem?_append_left (by rw [List.length_take]; omega)]
  exact List.getElem?_take_of_lt hj

/-- Elements after the removed index shift down by one. -/
theorem spliceRemove_getElem_ge (l : List JVal) (i j : Nat) (hij : i ≤ j)
    (hj : j + 1 < l.length) : (spliceRemove l i)[j]? = l[j + 1]? := by
  have hlen : (l.take i).length = i := by rw [List.length_take]; omega
  unfold spliceRemove
  rw [List.getElem?_append_right (by rw [hlen]; omega), List.getElem?_drop, hlen]
  congr 1
  omega

/-- `splice(i, 1)` at or past the end removes nothing. -/
theorem spliceRemove_of_le (l : List JVal) (i : Nat) (h : l.length ≤ i) :
    spliceRemove l i = l := by
  unfold spliceRemove
  rw [List.take_of_length_le h, List.drop_eq_nil_of_le (by omega)]
  simp

/-- Claim C4: each remove handler, given an in-range index `i`, deletes exactly
the element at `i` — the resulting list is one shorter, elements before `i`
are unchanged, and every element after `i` shifts down by one. -/
theorem C4_removeAt (d : Doc) (le lx lp : List JVal) (ie ix ip : Nat)
    (he : lookupVal d "education" = some (JVal.arr le)) (hie : ie < le.length)
    (hx : lookupVal d "experience" = some (JVal.arr lx)) (hix : ix < lx.length)
    (hp : lookupVal d "projects" = some (JVal.arr lp)) (hip : ip < lp.length) :
    (lookupVal (removeEducation (some d) ie) "education" =
        some (JVal.arr (spliceRemove le ie)) ∧
      (spliceRemove le ie).length = le.length - 1 ∧
      (∀ j, j < ie → (spliceRemove le ie)[j]? = le[j]?) ∧
      (∀ j, ie ≤ j → j + 1 < le.length → (spliceRemove le ie)[j]? = le[j + 1]?)) ∧
    (lookupVal (removeExperience (some d) ix) "experience" =
        some (JVal.arr (spliceRemove lx ix)) ∧
      (spliceRemove lx ix).length = lx.length - 1 ∧
      (∀ j, j < ix → (spliceRemove lx ix)[j]? = lx[j]?) ∧
      (∀ j, ix ≤ j → j + 1 < lx.length → (spliceRemove lx ix)[j]? = lx[j + 1]?)) ∧
    (lookupVal (removeProject (some d) ip) "projects" =
        some (JVal.arr (spliceRemove lp ip)) ∧
      (spliceRemove lp ip).length = lp.length - 1 ∧
      (∀ j, j < ip → (spliceRemove lp ip)[j]? = lp[j]?) ∧
      (∀ j, ip ≤ j → j + 1 < lp.length → (spliceRemove lp ip)[j]? = lp[j + 1]?)) := by
  refine ⟨⟨?_, spliceRemove_length le ie hie,
      fun j hj => spliceRemove_getElem_lt le ie j hj (Nat.le_of_lt hie),
      fun j h1 h2 => spliceRemove_getElem_ge le ie j h1 h2⟩,
    ⟨?_, spliceRemove_length lx ix hix,
      fun j hj => spliceRemove_getElem_lt lx ix j hj (Nat.le_of_lt hix),
      fun j h1 h2 => spliceRemove_getElem_ge lx ix j h1 h2⟩,
    ⟨?_, spliceRemove_length lp ip hip,
      fun j hj => spliceRemove_getElem_lt lp ip j hj (Nat.le_of_lt hip),
      fun j h1 h2 => spliceRemove_getElem_ge lp ip j h1 h2⟩⟩
  · simp [removeEducation, getList, he, handleFieldChange, lookupVal_setKey_self]
  · simp [removeExperience, getList, hx, handleFieldChange, lookupVal_setKey_self]
  · simp [removeProject, getList, hp, handleFieldChange, lookupVal_setKey_self]

/-- Witness for C4 at a concrete document with two-element lists, removing
index 0 from each. -/
theorem C4_removeAt_witness :
    (lookupVal (removeEducation (some [("education", JVal.arr [JVal.str "a", JVal.str "b"]),
          ("experience", JVal.arr [JVal.str "c", JVal.str "d"]),
          ("projects", JVal.arr [JVal.str "e", JVal.str "f"])]) 0) "education" =
        some (JVal.arr (spliceRemove [JVal.str "a", JVal.str "b"] 0)) ∧
      (spliceRemove [JVal.str "a", JVal.str "b"] 0).length =
        ([JVal.str "a", JVal.str "b"] : List JVal).length - 1 ∧
      (∀ j, j < 0 → (spliceRemove [JVal.str "a", JVal.str "b"] 0)[j]? =
        ([JVal.str "a", JVal.str "b"] : List JVal)[j]?) ∧
      (∀ j, 0 ≤ j → j + 1 < ([JVal.str "a", JVal.str "b"] : List JVal).length →
        (spliceRemove [JVal.str "a", JVal.str "b"] 0)[j]? =
          ([JVal.str "a", JVal.str "b"] : List JVal)[j + 1]?)) ∧
    (lookupVal (removeExperience (some [("education", JVal.arr [JVal.str "a", JVal.str "b"]),
          ("experience", JVal.arr [JVal.str "c", JVal.str "d"]),
          ("projects", JVal.arr [JVal.str "e", JVal.str "f"])]) 0) "experience" =
        some (JVal.arr (spliceRemove [JVal.str "c", JVal.str "d"] 0)) ∧
      (spliceRemove [JVal.str "c", JVal.str "d"] 0).length =
        ([JVal.str "c", JVal.str "d"] : List JVal).length - 1 ∧
      (∀ j, j < 0 → (spliceRemove [JVal.str "c", JVal.str "d"] 0)[j]? =
        ([JVal.str "c", JVal.str "d"] : List JVal)[j]?) ∧
      (∀ j, 0 ≤ j → j + 1 < ([JVal.str "c", JVal.str "d"] : List JVal).length →
        (spliceRemove [JVal.str "c", JVal.str "d"] 0)[j]? =
          ([JVal.str "c", JVal.str "d"] : List JVal)[j + 1]?)) ∧
    (lookupVal (removeProject (some [("education", JVal.arr [JVal.str "a", JVal.str "b"]),
          ("experience", JVal.arr [JVal.str "c", JVal.str "d"]),
          ("projects", JVal.arr [JVal.str "e", JVal.str "f"])]) 0) "projects" =
        some (JVal.arr (spliceRemove [JVal.str "e", JVal.str "f"] 0)) ∧
      (spliceRemove [JVal.str "e", JVal.str "f"] 0).length =
        ([JVal.str "e", JVal.str "f"] : List JVal).length - 1 ∧
      (∀ j, j < 0 → (spliceRemove [JVal.str "e", JVal.str "f"] 0)[j]? =
        ([JVal.str "e", JVal.str "f"] : List JVal)[j]?) ∧
      (∀ j, 0 ≤ j → j + 1 < ([JVal.str "e", JVal.str "f"] : List JVal).length →
        (spliceRemove [JVal.str "e", JVal.str "f"] 0)[j]? =
          ([JVal.str "e", JVal.str "f"] : List JVal)[j + 1]?)) :=
  C4_removeAt [("education", JVal.arr [JVal.str "a", JVal.str "b"]),
      ("experience", JVal.arr [JVal.str "c", JVal.str "d"]),
      ("projects", JVal.arr [JVal.str "e", JVal.str "f"])]
    [JVal.str "a", JVal.str "b"] [JVal.str "c", JVal.str "d"] [JVal.str "e", JVal.str "f"]
    0 0 0 rfl (by decide) rfl (by decide) rfl (by decide)

/-- Claim C5: the per-entry onChange handler changes only `D[f][i][s]` in the
resulting document: the list keeps its length, every entry other than `i` is
unchanged, entry `i` differs only at subfield `s` (now `v`), and every other
field of the document reads as before. -/
theorem C5_updateEntryField (d : Doc) (f s : String) (l : List JVal) (i : Nat)
    (kvs : List (String × JVal)) (v : JVal)
    (hf : lookupVal d f = some (JVal.arr l))
    (hi : l[i]? = some (JVal.obj kvs)) :
    lookupVal (updateEntryField (some d) f i s v) f =
      some (JVal.arr (l.set i (JVal.obj (setKey kvs s v)))) ∧
    (l.set i (JVal.obj (setKey kvs s v))).length = l.length ∧
    (∀ j, j ≠ i → (l.set i (JVal.obj (setKey kvs s v)))[j]? = l[j]?) ∧
    (l.set i (JVal.obj (setKey kvs s v)))[i]? = some (JVal.obj (setKey kvs s v)) ∧
    lookupVal (setKey kvs s v) s = some v ∧
    (∀ t, t ≠ s → lookupVal (setKey kvs s v) t = lookupVal kvs t) ∧
    (∀ g, g ≠ f → lookupVal (updateEntryField (some d) f i s v) g = lookupVal d g) := by
  have hil : i < l.length := by
    by_contra hc
    rw [List.getElem?_eq_none (by omega)] at hi
    cases hi
  have hred : updateEntryField (some d) f i s v =
      setKey d f (JVal.arr (l.set i (JVal.obj (setKey kvs s v)))) := by
    simp only [updateEntryField, getList, hf, hi, handleFieldChange, setKeyJ]
  refine ⟨?_, by simp, fun j hj => List.getElem?_set_ne (Ne.symm hj),
    List.getElem?_set_self hil, lookupVal_setKey_self kvs s v,
    fun t ht => lookupVal_setKey_ne kvs s t v ht, fun g hg => ?_⟩
  · rw [hred]
    exact lookupVal_setKey_self d f _
  · rw [hred]
    exact lookupVal_setKey_ne d f g _ hg

/-- Witness for C5: set `degree` of education entry 0 to `"PhD"` in a concrete
two-field document with a one-entry education list. -/
theorem C5_updateEntryField_witness :
    lookupVal (updateEntryField (some [("full_name", JVal.str "Jane"),
        ("education", JVal.arr [JVal.obj [("degree", JVal.str "BS"), ("institution", JVal.str "MIT")]])])
        "education" 0 "degree" (JVal.str "PhD")) "education" =
      some (JVal.arr ([JVal.obj [("degree", JVal.str "BS"), ("institution", JVal.str "MIT")]].set 0
        (JVal.obj (setKey [("degree", JVal.str "BS"), ("institution", JVal.str "MIT")] "degree"
          (JVal.str "PhD"))))) ∧
    (([JVal.obj [("degree", JVal.str "BS"), ("institution", JVal.str "MIT")]] : List JVal).set 0
        (JVal.obj (setKey [("degree", JVal.str "BS"), ("institution", JVal.str "MIT")] "degree"
          (JVal.str "PhD")))).length =
      ([JVal.obj [("degree", JVal.str "BS"), ("institution", JVal.str "MIT")]] : List JVal).length ∧
    (∀ j, j ≠ 0 →
      (([JVal.obj [("degree", JVal.str "BS"), ("institution", JVal.str "MIT")]] : List JVal).set 0
          (JVal.obj (setKey [("degree", JVal.str "BS"), ("institution", JVal.str "MIT")] "degree"
            (JVal.str "PhD"))))[j]? =
        ([JVal.obj [("degree", JVal.str "BS"), ("institution", JVal.str "MIT")]] : List JVal)[j]?) ∧
    (([JVal.obj [("degree", JVal.str "BS"), ("institution", JVal.str "MIT")]] : List JVal).set 0
        (JVal.obj (setKey [("degree", JVal.str "BS"), ("institution", JVal.str "MIT")] "degree"
          (JVal.str "PhD"))))[0]? =
      some (JVal.obj (setKey [("degree", JVal.str "BS"), ("institution", JVal.str "MIT")] "degree"
        (JVal.str "PhD"))) ∧
    lookupVal (setKey [("degree", JVal.str "BS"), ("institution", JVal.str "MIT")] "degree"
        (JVal.str "PhD")) "degree" = some (JVal.str "PhD") ∧
    (∀ t, t ≠ "degree" →
      lookupVal (setKey [("degree", JVal.str "BS"), ("institution", JVal.str "MIT")] "degree"
          (JVal.str "PhD")) t =
        lookupVal [("degree", JVal.str "BS"), ("institution", JVal.str "MIT")] t) ∧
    (∀ g, g ≠ "education" →
      lookupVal (updateEntryField (some [("full_name", JVal.str "Jane"),
          ("education", JVal.arr [JVal.obj [("degree", JVal.str "BS"), ("institution", JVal.str "MIT")]])])
          "education" 0 "degree" (JVal.str "PhD")) g =
        lookupVal [("full_name", JVal.str "Jane"),
          ("education", JVal.arr [JVal.obj [("degree", JVal.str "BS"), ("institution", JVal.str "MIT")]])] g) :=
  C5_updateEntryField
    [("full_name", JVal.str "Jane"),
      ("education", JVal.arr [JVal.obj [("degree", JVal.str "BS"), ("institution", JVal.str "MIT")]])]
    "education" "degree" [JVal.obj [("degree", JVal.str "BS"), ("institution", JVal.str "MIT")]] 0
    [("degree", JVal.str "BS"), ("institution", JVal.str "MIT")] (JVal.str "PhD") rfl rfl

/-- Claim C10: a remove handler called with an index at or past the end of the
list leaves the list's contents exactly as they were (JS `splice(i, 1)` with
`i ≥ length` removes nothing); on a document lacking the field, the field is
treated as the empty list and gets bound to an empty list in the result. -/
theorem C10_removeAt_out_of_range (d d' : Doc) (le lx lp : List JVal) (ie ix ip i' : Nat)
    (he : lookupVal d "education" = some (JVal.arr le)) (hie : le.length ≤ ie)
    (hx : lookupVal d "experience" = some (JVal.arr lx)) (hix : lx.length ≤ ix)
    (hp : lookupVal d "projects" = some (JVal.arr lp)) (hip : lp.length ≤ ip)
    (hd' : lookupVal d' "education" = none) :
    lookupVal (removeEducation (some d) ie) "education" = some (JVal.arr le) ∧
    lookupVal (removeExperience (some d) ix) "experience" = some (JVal.arr lx) ∧
    lookupVal (removeProject (some d) ip) "projects" = some (JVal.arr lp) ∧
    lookupVal (removeEducation (some d') i') "education" = some (JVal.arr []) := by
  refine ⟨?_, ?_, ?_, ?_⟩
  · simp [removeEducation, getList, he, handleFieldChange, lookupVal_setKey_self,
      spliceRemove_of_le le ie hie]
  · simp [removeExperience, getList, hx, handleFieldChange, lookupVal_setKey_self,
      spliceRemove_of_le lx ix hix]
  · simp [removeProject, getList, hp, handleFieldChange, lookupVal_setKey_self,
      spliceRemove_of_le lp ip hip]
  · simp [removeEducation, getList, hd', handleFieldChange, lookupVal_setKey_self,
      spliceRemove_of_le ([] : List JVal) i' (by simp)]

/-- Witness for C10: removal at index 5 from one-element lists, and removal on
a document without an education field. -/
theorem C10_removeAt_out_of_range_witness :
    lookupVal (removeEducation (some [("education", JVal.arr [JVal.str "a"]),
        ("experience", JVal.arr [JVal.str "b"]), ("projects", JVal.arr [JVal.str "c"])]) 5)
      "education" = some (JVal.arr [JVal.str "a"]) ∧
    lookupVal (removeExperience (some [("education", JVal.arr [JVal.str "a"]),
        ("experience", JVal.arr [JVal.str "b"]), ("projects", JVal.arr [JVal.str "c"])]) 5)
      "experience" = some (JVal.arr [JVal.str "b"]) ∧
    lookupVal (removeProject (some [("education", JVal.arr [JVal.str "a"]),
        ("experience", JVal.arr [JVal.str "b"]), ("projects", JVal.arr [JVal.str "c"])]) 5)
      "projects" = some (JVal.arr [JVal.str "c"]) ∧
    lookupVal (removeEducation (some ([("full_name", JVal.str "Jane")] : Doc)) 0)
      "education" = some (JVal.arr []) :=
  C10_removeAt_out_of_range
    [("education", JVal.arr [JVal.str "a"]), ("experience", JVal.arr [JVal.str "b"]),
      ("projects", JVal.arr [JVal.str "c"])]
    [("full_name", JVal.str "Jane")]
    [JVal.str "a"] [JVal.str "b"] [JVal.str "c"] 5 5 5 0
    rfl (by decide) rfl (by decide) rfl (by decide) rfl

/-- A string with a non-empty prefix is non-empty. -/
theorem prepend_ne_empty (a b : String) (ha : a.length ≠ 0) : a ++ b ≠ "" := by
  intro h
  have hl := congrArg String.length h
  rw [String.length_append] at hl
  have h0 : ("" : String).length = 0 := rfl
  rw [h0] at hl
  omega

/-- Any failing upload outcome leaves the document untouched and sets a
non-empty error message. -/
theorem upload_failure_state (st : AppState) (out : UploadOutcome)
    (hfile : st.file.isSome = true)
    (hfail : UploadOutcome.isFailure out = true)
    (hmsg : ∀ m, out = UploadOutcome.reject (some m) → m ≠ "") :
    (handleUpload st out).parsedData = st.parsedData ∧
    ∃ e, (handleUpload st out).error = some e ∧ e ≠ "" := by
  obtain ⟨fl, hfl⟩ := Option.isSome_iff_exists.mp hfile
  cases out with
  | reject msg =>
    cases msg with
    | none =>
      exact ⟨by simp [handleUpload, hfl], "An unknown error occurred.",
        by simp [handleUpload, hfl], by decide⟩
    | some m =>
      exact ⟨by simp [handleUpload, hfl], m, by simp [handleUpload, hfl], hmsg m rfl⟩
  | notOk statusText =>
    exact ⟨by simp [handleUpload, hfl], "Upload failed: " ++ statusText,
      by simp [handleUpload, hfl], prepend_ne_empty _ _ (by decide)⟩
  | success parsed pdf =>
    have hN : parsed.isNone = true := hfail
    have hnone : parsed = none := Option.isNone_iff_eq_none.mp hN
    subst hnone
    exact ⟨by simp [handleUpload, hfl], "Parsing failed. Please try another resume.",
      by simp [handleUpload, hfl], by decide⟩

/-- Claim C6: every failing upload attempt — transport error, non-2xx status,
or a 2xx body without `parsed` — leaves the current document untouched (still
absent if none was loaded) and sets the error message to a non-empty string.
(The transport error's own message is assumed non-empty, as real `fetch`
rejections are; an empty one would surface verbatim.) -/
theorem C6_upload_failure (st : AppState) (out : UploadOutcome)
    (hfile : st.file.isSome = true)
    (hfail : UploadOutcome.isFailure out = true)
    (hmsg : ∀ m, out = UploadOutcome.reject (some m) → m ≠ "") :
    (handleUpload st out).parsedData = st.parsedData ∧
    ∃ e, (handleUpload st out).error = some e ∧ e ≠ "" :=
  upload_failure_state st out hfile hfail hmsg

/-- Witness for C6: an HTTP 500 on a first upload — the document stays absent
and a non-empty error message is set. -/
theorem C6_upload_failure_witness :
    (handleUpload ⟨some "resume.pdf", none, none, false, none⟩
        (UploadOutcome.notOk "Internal Server Error")).parsedData =
      (⟨some "resume.pdf", none, none, false, none⟩ : AppState).parsedData ∧
    ∃ e, (handleUpload ⟨some "resume.pdf", none, none, false, none⟩
        (UploadOutcome.notOk "Internal Server Error")).error = some e ∧ e ≠ "" :=
  C6_upload_failure ⟨some "resume.pdf", none, none, false, none⟩
    (UploadOutcome.notOk "Internal Server Error") rfl rfl (fun m h => by cases h)

/-- The save handler never writes the error cell, whatever the outcome. -/
theorem handleSave_error_eq (st : AppState) (t : Nat) (out : SaveOutcome) :
    (handleSave st t out).error = st.error := by
  unfold handleSave
  cases hpd : st.parsedData with
  | none => rfl
  | some p =>
    cases out with
    | reject => rfl
    | response ok pdf =>
      cases pdf with
      | none => rfl
      | some url => by_cases hu : url = "" <;> simp [hu]

/-- A save outcome yielding no usable `pdf_url` leaves the state unchanged. -/
theorem handleSave_noPdf_eq (st : AppState) (t : Nat) (out : SaveOutcome)
    (h : SaveOutcome.yieldsNoPdf out = true) : handleSave st t out = st := by
  unfold handleSave
  cases hpd : st.parsedData with
  | none => rfl
  | some p =>
    cases out with
    | reject => rfl
    | response ok pdf =>
      cases pdf with
      | none => rfl
      | some url =>
        have hu : url = "" := by simpa [SaveOutcome.yieldsNoPdf] using h
        simp [hu]

/-- Claim C7 counterexample: a save attempt from a loaded document that fails
with a transport error produces no user-facing message — the error cell is
still `none` afterwards — refuting "every failure of either operation ... is
converted into a single user-facing message string" for the save operation. -/
theorem C7_save_failure_no_message :
    ¬ (∀ (st : AppState) (t : Nat) (out : SaveOutcome), SaveOutcome.failed out = true →
        ∃ e, (handleSave st t out).error = some e) := by
  intro h
  obtain ⟨e, he⟩ := h ⟨some "resume.pdf", some [("full_name", JVal.str "Jane")],
    some "r1.pdf", false, none⟩ 5 SaveOutcome.reject rfl
  simp [handleSave] at he

/-- Claim C7 (amended): upload failures of all three kinds are caught in
`handleUpload` and converted into a single non-empty user-facing message; save
failures are also caught at the controller — the handler always returns a
state instead of propagating — but they produce no user-facing message: the
save handler never writes the error cell, and a rejected request or a response
without a usable `pdf_url` leaves the state entirely unchanged (such failures
are only logged to the console). -/
theorem C7_error_handling_amended (ust st : AppState) (uout : UploadOutcome)
    (t : Nat) (out : SaveOutcome)
    (hfile : ust.file.isSome = true)
    (hufail : UploadOutcome.isFailure uout = true)
    (hmsg : ∀ m, uout = UploadOutcome.reject (some m) → m ≠ "") :
    (∃ e, (handleUpload ust uout).error = some e ∧ e ≠ "") ∧
    (handleSave st t out).error = st.error ∧
    (SaveOutcome.yieldsNoPdf out = true → handleSave st t out = st) :=
  ⟨(upload_failure_state ust uout hfile hufail hmsg).2,
    handleSave_error_eq st t out,
    fun h => handleSave_noPdf_eq st t out h⟩

/-- Witness for the amended C7 at a concrete failing upload and a concrete
failing save. -/
theorem C7_error_handling_amended_witness :
    (∃ e, (handleUpload ⟨some "resume.pdf", none, none, false, none⟩
        (UploadOutcome.notOk "Internal Server Error")).error = some e ∧ e ≠ "") ∧
    (handleSave ⟨some "resume.pdf", some [("full_name", JVal.str "Jane")],
        some "r1.pdf", false, none⟩ 5 SaveOutcome.reject).error =
      (⟨some "resume.pdf", some [("full_name", JVal.str "Jane")],
        some "r1.pdf", false, none⟩ : AppState).error ∧
    (SaveOutcome.yieldsNoPdf SaveOutcome.reject = true →
      handleSave ⟨some "resume.pdf", some [("full_name", JVal.str "Jane")],
          some "r1.pdf", false, none⟩ 5 SaveOutcome.reject =
        ⟨some "resume.pdf", some [("full_name", JVal.str "Jane")],
          some "r1.pdf", false, none⟩) :=
  C7_error_handling_amended ⟨some "resume.pdf", none, none, false, none⟩
    ⟨some "resume.pdf", some [("full_name", JVal.str "Jane")], some "r1.pdf", false, none⟩
    (UploadOutcome.notOk "Internal Server Error") 5 SaveOutcome.reject
    rfl rfl (fun m h => by cases h)

/-- Claim C8: a save invocation never changes the in-memory document — a
successful response only updates the preview URL and a failure changes
nothing — so edits survive any save and the document is only ever installed
by the upload path. -/
theorem C8_save_preserves_document (st : AppState) (t : Nat) (out : SaveOutcome) :
    (handleSave st t out).parsedData = st.parsedData := by
  unfold handleSave
  cases hpd : st.parsedData with
  | none => exact hpd
  | some p =>
    cases out with
    | reject => exact hpd
    | response ok pdf =>
      cases pdf with
      | none => exact hpd
      | some url => by_cases hu : url = "" <;> simp [hu, hpd]

/-- Claim C9: bulk text fields display as the list joined with ", ", and an
edit is reparsed by splitting the entered text on every comma with no
trimming — editing `technical_skills` to "Go, Rust,C++" stores the list
["Go", " Rust", "C++"] — and the join/split round-trip is lossy for an
element that itself contains a comma. -/
theorem C9_bulk_fields :
    jsSplitComma "Go, Rust,C++" = ["Go", " Rust", "C++"] ∧
    lookupVal (editBulkField (some [("technical_skills", JVal.arr [JVal.str "Python"])])
        "technical_skills" "Go, Rust,C++") "technical_skills" =
      some (JVal.arr [JVal.str "Go", JVal.str " Rust", JVal.str "C++"]) ∧
    bulkDisplay ["Go", "Rust"] = "Go, Rust" ∧
    bulkDisplay ["a,b"] = "a,b" ∧
    jsSplitComma (bulkDisplay ["a,b"]) = ["a", "b"] ∧
    jsSplitComma (bulkDisplay ["a,b"]) ≠ ["a,b"] :=
  ⟨rfl, rfl, rfl, rfl, rfl, by decide⟩
